import Mathlib

/-!
Verification development for the gh-actionarmor linter core.

The Go sources are shallowly embedded as executable Lean definitions:

* Go strings are Lean `String` values (in this toolchain a `String` wraps a
  `List Char`, so all string operations below are structural and computable).
* `strings.Split` with a single-character separator is `goSplitOn`,
  `strings.TrimSpace` is `goTrim` (ASCII whitespace set), `len(s)` on a Go
  string (a byte count) is `String.utf8ByteSize`.
* Remote collaborators (the tag/commit resolver and the GitHub GraphQL
  queries) are out-of-scope services consumed through interfaces; they are
  embedded as a record of oracle functions (`Collaborators`) returning
  `Except`, exactly as the linter consumes them.
* Fallible Go functions returning `(T, error)` become `Except String T`;
  functions returning `*Error` (nil meaning "no violation") become
  `Option LintError`.
* The concurrent fan-in of per-task result channels delivers the task
  results in an arbitrary completion order; it is modelled by quantifying
  over permutations of the task-result list.
-/

namespace ActionArmor

/-- The ASCII whitespace characters recognised by Go `unicode.IsSpace`
(restricted to the ASCII range, which covers workflow tokens). -/
def isGoSpace (c : Char) : Bool :=
  c == ' ' || c == '\t' || c == '\n' || c == '\x0b' || c == '\x0c' || c == '\r'

/-- Go `strings.TrimSpace`: drop leading and trailing whitespace. -/
def goTrim (s : String) : String :=
  ⟨((s.data.dropWhile isGoSpace).reverse.dropWhile isGoSpace).reverse⟩

/-- Go `strings.Split(s, sep)` for a single-character separator `sep`. -/
def goSplitOn (s : String) (sep : Char) : List String :=
  (s.data.splitOn sep).map (fun l => ⟨l⟩)

/-- Go `strings.HasPrefix`. -/
def goStartsWith (s pat : String) : Bool :=
  s.data.take pat.data.length == pat.data

/-- Go `strings.Join` for string slices. -/
def goJoin (l : List String) (sep : String) : String :=
  ⟨List.intercalate sep.data (l.map String.data)⟩

/-- Does `s` contain `pat` as a substring (Go `strings.Contains`)?
Implemented through list infixes; only used for the error-text test inside
`checkVerifiedOrg`. -/
def goContains (s pat : String) : Bool :=
  decide (pat.data <:+: s.data)

/-- `resolver.IsSHA` from the external gh-taghash package.
Modelled from the spec: the resolver collaborator is out of scope and the
spec (§8) fixes `IsPinnedBySHA`/`IsSHA` as matching the regular expression
`[0-9a-f]` repeated exactly 40 times. -/
def IsSHA (s : String) : Bool :=
  s.data.length == 40 && s.data.all (fun c => c.isDigit || ('a' ≤ c && c ≤ 'f'))

/-- `linter.ErrorKind` (a string-valued kind). -/
abbrev ErrorKind := String

def KindArchivedActionUsed : ErrorKind := "archived action action is being used"

def KindRuntimeError : ErrorKind := "runtime error"

def KindUnexpectedValue : ErrorKind := "unexpected value"

def KindUnpinned : ErrorKind := "must be pinned by hash"

/-- The fixed official-creator set. -/
def OfficialCreators : List String := ["actions", "cli", "github"]

/-- The fixed verified-creator set (a curated static list in the source). -/
def actionsByVerifiedCreators : List String :=
  ["docker/login-action", "google-github-actions/auth",
   "google-github-actions/setup-gcloud", "slackapi/slack-github-action"]

/-- `linter.Action`: the structured form of a `uses` value. -/
structure Action where
  ID : String
  Owner : String
  Name : String
  Ref : String
deriving DecidableEq

/-- `repository.Repository` (owner/name pair) from the go-gh package. -/
structure Repository where
  Owner : String
  Name : String
deriving DecidableEq

/-- `Action.String()`: renders `Owner/Name@Ref` (extra path segments held in
`ID` are discarded). -/
def Action.toStr (a : Action) : String :=
  a.Owner ++ "/" ++ a.Name ++ "@" ++ a.Ref

/-- `Action.RepoID()`: the `owner/name` string. -/
def Action.RepoID (a : Action) : String :=
  a.Owner ++ "/" ++ a.Name

/-- `Action.Repository()`. -/
def Action.repo (a : Action) : Repository :=
  ⟨a.Owner, a.Name⟩

/-- `Action.IsLocalReusableWorkflows()`. -/
def Action.IsLocalReusableWorkflows (a : Action) : Bool :=
  goStartsWith a.ID "./.github/workflows/"

/-- `Action.IsPinnedBySHA()`. -/
def Action.IsPinnedBySHA (a : Action) : Bool :=
  IsSHA a.Ref

/-- `linter.ParseActionUses`: trim, split on `@` (exactly two segments
required), then split the action id on `/` (at least two parts required). -/
def ParseActionUses (uses : String) : Except String Action :=
  let u := goTrim uses
  match goSplitOn u '@' with
  | [actionID, ref] =>
    match goSplitOn actionID '/' with
    | a0 :: a1 :: _ => .ok ⟨actionID, a0, a1, ref⟩
    | _ => .error ("invalid uses value: expected=owner/repo, actual=" ++ actionID)
  | _ => .error ("unexpected uses value: " ++ u)

example : ParseActionUses "owner/repo@ref" = .ok ⟨"owner/repo", "owner", "repo", "ref"⟩ := by
  rfl

example :
    ParseActionUses "octo-org/this-repo/.github/workflows/workflow-1.yml@v1" =
      .ok ⟨"octo-org/this-repo/.github/workflows/workflow-1.yml", "octo-org", "this-repo", "v1"⟩ := by
  rfl

example : (ParseActionUses "invalid").isOk = false := by decide

example : IsSHA "0123456789abcdef0123456789abcdef01234567" = true := by decide

example : IsSHA "v1.0.0" = false := by decide

/-! ## Policy parameter set (`WorkflowLintParams`) -/

/-- The documented defaults for the six policy flags. -/
def DefaultExcludeOfficialActions : Bool := true

def DefaultExcludeVerifiedCreators : Bool := false

def DefaultAllowOnlyAllowlistedHash : Bool := false

def DefaultAllowArchivedRepo : Bool := true

def DefaultEnforcePinHash : Bool := true

def DefaultEnforceVerifiedOrg : Bool := false

/-- `linter.AllowedEntry`: one hash-allowlist entry. -/
structure AllowedEntry where
  SHA : String
  Comment : Option String
deriving DecidableEq

/-- `linter.WorkflowLintParams`.  The Go `*bool` flags ("explicit nil means
use default") are `Option Bool`; the Go `map[string][]AllowedEntry` is an
association list looked up by first match. -/
structure WorkflowLintParams where
  ExcludeOfficialActions : Option Bool
  ExcludeVerifiedCreators : Option Bool
  AllowOnlyAllowlistedHash : Option Bool
  AllowArchivedRepo : Option Bool
  EnforcePinHash : Option Bool
  EnforceVerifiedOrganization : Option Bool
  CreatorAllowlist : List String
  ActionAllowlist : List String
  HashAllowlist : List (String × List AllowedEntry)
deriving DecidableEq

/-- The Go zero value of `WorkflowLintParams` that `NewWorkflowLintParams`
starts from. -/
def emptyWorkflowLintParams : WorkflowLintParams :=
  ⟨none, none, none, none, none, none, [], [], []⟩

/-- `linter.WorkflowLintOption` (options never return a non-nil error in the
source, so they are pure transformers here). -/
abbrev WorkflowLintOption := WorkflowLintParams → WorkflowLintParams

def WithExcludeOfficialActions (v : Bool) : WorkflowLintOption := fun p =>
  { p with ExcludeOfficialActions := some v }

def WithExcludeVerifiedCreators (v : Bool) : WorkflowLintOption := fun p =>
  { p with ExcludeVerifiedCreators := some v }

def WithAllowOnlyAllowlistedHash (v : Bool) : WorkflowLintOption := fun p =>
  { p with AllowOnlyAllowlistedHash := some v }

def WithAllowArchivedRepo (v : Bool) : WorkflowLintOption := fun p =>
  { p with AllowArchivedRepo := some v }

def WithEnforcePinHash (v : Bool) : WorkflowLintOption := fun p =>
  { p with EnforcePinHash := some v }

def WithEnforceVerifiedOrganization (v : Bool) : WorkflowLintOption := fun p =>
  { p with EnforceVerifiedOrganization := some v }

/-- The append-if-absent loop shared by `WithCreatorAllowlist` and
`WithActionAllowlist` (each option holds a literal copy of this loop in the
source). -/
def appendUnique (acc : List String) (v : List String) : List String :=
  v.foldl (fun acc x => if acc.contains x then acc else acc ++ [x]) acc

def WithCreatorAllowlist (v : List String) : WorkflowLintOption := fun p =>
  { p with CreatorAllowlist := appendUnique p.CreatorAllowlist v }

def WithActionAllowlist (v : List String) : WorkflowLintOption := fun p =>
  { p with ActionAllowlist := appendUnique p.ActionAllowlist v }

/-- `WithHashAllowlist` assigns the map wholesale (`p.HashAllowlist = v`). -/
def WithHashAllowlist (v : List (String × List AllowedEntry)) : WorkflowLintOption := fun p =>
  { p with HashAllowlist := v }

/-- `linter.NewWorkflowLintParams`: apply the options to the zero value in
order, then fill every unset flag with its default.  (The nil-allowlist
normalisation steps of the source are identities in this model, where the
zero value of a slice or map is already the empty list.) -/
def NewWorkflowLintParams (opts : List WorkflowLintOption) : WorkflowLintParams :=
  let p := opts.foldl (fun p opt => opt p) emptyWorkflowLintParams
  { p with
    ExcludeOfficialActions := some (p.ExcludeOfficialActions.getD DefaultExcludeOfficialActions)
    ExcludeVerifiedCreators := some (p.ExcludeVerifiedCreators.getD DefaultExcludeVerifiedCreators)
    AllowOnlyAllowlistedHash := some (p.AllowOnlyAllowlistedHash.getD DefaultAllowOnlyAllowlistedHash)
    AllowArchivedRepo := some (p.AllowArchivedRepo.getD DefaultAllowArchivedRepo)
    EnforcePinHash := some (p.EnforcePinHash.getD DefaultEnforcePinHash)
    EnforceVerifiedOrganization :=
      some (p.EnforceVerifiedOrganization.getD DefaultEnforceVerifiedOrg) }

/-- `WorkflowLintParams.GetHashAllowlist`: look up by action id first, then
by repo id; `none` models the nil slice returned when neither key exists. -/
def WorkflowLintParams.GetHashAllowlist (p : WorkflowLintParams) (action : Action) :
    Option (List AllowedEntry) :=
  match p.HashAllowlist.find? (fun kv => kv.1 == action.ID) with
  | some kv => some kv.2
  | none =>
    match p.HashAllowlist.find? (fun kv => kv.1 == action.RepoID) with
    | some kv => some kv.2
    | none => none

example :
    (NewWorkflowLintParams []).ExcludeOfficialActions = some true ∧
      (NewWorkflowLintParams []).EnforcePinHash = some true ∧
      (NewWorkflowLintParams []).AllowArchivedRepo = some true ∧
      (NewWorkflowLintParams []).ExcludeVerifiedCreators = some false := by
  refine ⟨rfl, rfl, rfl, rfl⟩

/-! ## Rule engine (`lintJobUses`) and its collaborators -/

def maxCommentLen : Nat := 20

/-- `shortenHash`: a SHA is abbreviated to its first seven characters. -/
def shortenHash (hash : String) : String :=
  if !IsSHA hash then hash else ⟨hash.data.take 7⟩

/-- `truncateString` (rune-count based). -/
def truncateString (s : String) (len : Nat) : String :=
  if s.data.length ≤ len then s else (⟨s.data.take len⟩ : String) ++ "..."

/-- The worker of `replaceNewlines`: collapse each maximal whitespace run to
one space, tracking whether the previous character was part of a run. -/
def collapseSpacesGo (prevSpace : Bool) : List Char → List Char
  | [] => []
  | c :: rest =>
    if isGoSpace c then
      if prevSpace then collapseSpacesGo true rest else ' ' :: collapseSpacesGo true rest
    else c :: collapseSpacesGo false rest

/-- `replaceNewlines`: the regex replacement of `[\r\n\s]+` by one space. -/
def replaceNewlines (s : String) : String :=
  ⟨collapseSpacesGo false s.data⟩

/-- `actionlint.Pos`: 1-based line/column of a token. -/
structure Pos where
  line : Nat
  col : Nat
deriving DecidableEq

/-- `actionlint.Pos.String()`. -/
def posString (p : Pos) : String :=
  "line:" ++ Nat.repr p.line ++ ",col:" ++ Nat.repr p.col

/-- `actionlint.String`: a scalar workflow token with its source position. -/
structure ActionlintStr where
  value : String
  pos : Pos
deriving DecidableEq

/-- `resolver.GitTag` (tag name and commit hash) from gh-taghash. -/
structure GitTag where
  Tag : String
  CommitHash : String
deriving DecidableEq

/-- The archived-status answer of the repository query; `ArchivedAtDate` is
the `archived-at` timestamp already rendered in the `2006-01-02` layout the
violation message uses. -/
structure ArchivedInfo where
  IsArchived : Bool
  ArchivedAtDate : String
deriving DecidableEq

/-- The remote collaborators the rule engine consults, embedded as oracles:
the tag/commit resolver (`ResolveFromHashContext`, `ResolveFromTagContext`)
and the three GraphQL lookups made by `isArchivedAction` and
`checkVerifiedOrg`. -/
structure Collaborators where
  resolveFromHash : Repository → String → Except String (List GitTag)
  resolveFromTag : Repository → String → Except String GitTag
  queryIsArchived : Repository → Except String ArchivedInfo
  queryUserLogin : String → Except String String
  queryOrgLogin : String → Except String String
  queryOrgIsVerified : String → Except String Bool

/-- `linter.resolveGitTagNamesFromSha`: resolve and keep only tag names,
wrapping a resolver failure with repo and ref context. -/
def resolveGitTagNamesFromSha (c : Collaborators) (repo : Repository) (ref : String) :
    Except String (List String) :=
  match c.resolveFromHash repo ref with
  | .error e =>
    .error ("failed to resolve git tags from a ref: repo=" ++ repo.Owner ++ "/" ++ repo.Name ++
      ", ref=" ++ ref ++ ", error=" ++ e)
  | .ok gitTags => .ok (gitTags.map GitTag.Tag)

/-- The organization part of `checkVerifiedOrg`: resolve the login as an
organization and require it to be verified. -/
def checkVerifiedOrgAsOrg (c : Collaborators) (login : String) : Except String Unit :=
  match c.queryOrgLogin login with
  | .error e => .error ("failed to execute a query: " ++ e)
  | .ok orgLogin =>
    if orgLogin == "" then .error ("organization not found: " ++ login)
    else
      match c.queryOrgIsVerified login with
      | .error e => .error ("failed to execute a query: " ++ e)
      | .ok verified =>
        if !verified then .error ("organization is not verified: " ++ login) else .ok ()

/-- `linter.checkVerifiedOrg`: a no-op unless `enforce_verified_organization`
is set; a login resolving to a user skips verification; an unresolvable user
login (the "Could not resolve to" error text) falls through to the
organization lookup, any other user-query failure propagates. -/
def checkVerifiedOrg (c : Collaborators) (login : String) (params : WorkflowLintParams) :
    Except String Unit :=
  if !(params.EnforceVerifiedOrganization.getD false) then .ok ()
  else
    match c.queryUserLogin login with
    | .error e =>
      if !(goContains e "Could not resolve to") then .error e
      else checkVerifiedOrgAsOrg c login
    | .ok userLogin =>
      if userLogin != "" then .ok () else checkVerifiedOrgAsOrg c login

/-- `linter.isVerifiedCreator` (the error result of the source is the
constant nil, so only the boolean remains). -/
def isVerifiedCreator (a : Action) : Bool :=
  actionsByVerifiedCreators.contains a.RepoID

/-- `linter.isAllowlisted`: creator allowlist, then action allowlist, then
(for SHA-pinned refs only) the hash allowlist of this action or repo. -/
def isAllowlisted (action : Action) (params : WorkflowLintParams) : Bool × String :=
  if params.CreatorAllowlist.contains action.Owner then (true, "allowlisted creator")
  else if params.ActionAllowlist.contains action.RepoID then (true, "allowlisted action")
  else if !action.IsPinnedBySHA then (false, "not allowlisted")
  else if ((params.GetHashAllowlist action).getD []).any (fun e => e.SHA == action.Ref) then
    (true, "pinned by allowlisted hash")
  else (false, "not allowlisted")

/-- `linter.WorkflowLintInfo`.  `relPathResult` is the outcome of the
source's `RelPath()` (when the owning project is nil it is `.ok FilePath`;
otherwise `filepath.Rel`, a path computation outside the core, which is
therefore carried as data). -/
structure WorkflowLintInfo where
  FilePath : String
  Params : WorkflowLintParams
  RepoID : String
  relPathResult : Except String String

/-- `linter.Error` flattened: the wrapped `actionlint.Error` fields plus the
absolute workflow path back-reference. -/
structure LintError where
  Message : String
  Filepath : String
  Line : Nat
  Column : Nat
  Kind : ErrorKind
  WorkflowAbsFilePath : String
deriving DecidableEq

/-- `linter.newLintError`. -/
def newLintError (msg relPath : String) (wf : WorkflowLintInfo) (pos : Pos) (kind : ErrorKind) :
    LintError :=
  ⟨msg, relPath, pos.line, pos.col, kind, wf.FilePath⟩

/-- The allowlist-rendering loop inside the `AllowOnlyAllowlistedHash` branch
of `lintJobUses`: each allowed entry is resolved to its tags (failures abort
the loop) and rendered as `sha(tags)` or `sha(tags: comment)` with the
comment collapsed, trimmed and truncated to `maxCommentLen`. -/
def renderAllowlist (c : Collaborators) (repo : Repository) (entries : List AllowedEntry) :
    Except String (List String) :=
  entries.foldlM (fun acc entry =>
    let comment := match entry.Comment with
      | some cm => goTrim (replaceNewlines cm)
      | none => ""
    match resolveGitTagNamesFromSha c repo entry.SHA with
    | .error e => .error e
    | .ok entryTagNames =>
      let entryTagsStr := goJoin entryTagNames ", "
      let entryShortSHA := shortenHash entry.SHA
      let allowlistEntry :=
        if comment == "" then entryShortSHA ++ "(" ++ entryTagsStr ++ ")"
        else entryShortSHA ++ "(" ++ entryTagsStr ++ ": " ++ truncateString comment maxCommentLen ++ ")"
      .ok (acc ++ [allowlistEntry])) []

/-- `fmt`-style rendering of a Go string slice (`%v`). -/
def fmtStringSlice (l : List String) : String :=
  "[" ++ goJoin l " " ++ "]"

/-- `linter.lintJobUses`: the ordered, short-circuiting decision chain run
for one `uses` token.  `none` is ALLOW, `some` is the single violation or
runtime-error outcome.  The Go pointer flags are dereferenced with their
defaults (`NewWorkflowLintParams` guarantees they are set before this is
reached). -/
def lintJobUses (c : Collaborators) (uses : Option ActionlintStr) (wf : WorkflowLintInfo) :
    Option LintError :=
  match uses with
  | none => none
  | some uses =>
    match goSplitOn uses.value '@' with
    | [_] => none
    | [_, _] =>
      match wf.relPathResult with
      | .error e =>
        some (newLintError ("failed to get relative path: " ++ e) wf.FilePath wf uses.pos
          KindRuntimeError)
      | .ok relPath =>
        match ParseActionUses uses.value with
        | .error e => some (newLintError e relPath wf uses.pos KindUnexpectedValue)
        | .ok action =>
          if action.IsLocalReusableWorkflows then none
          else
          let params := wf.Params
          if params.ExcludeOfficialActions.getD DefaultExcludeOfficialActions &&
              OfficialCreators.contains action.Owner then none
          else if (isAllowlisted action params).1 then
            if action.IsPinnedBySHA then
              match resolveGitTagNamesFromSha c action.repo action.Ref with
              | .error e =>
                some (newLintError ("failed to resolve git tags from sha: " ++ e) relPath wf
                  uses.pos KindRuntimeError)
              | .ok _ => none
            else
              match c.resolveFromTag action.repo action.Ref with
              | .error e =>
                some (newLintError ("failed to resolve git tag: " ++ e) relPath wf uses.pos
                  KindRuntimeError)
              | .ok _ => none
          else if params.ExcludeVerifiedCreators.getD DefaultExcludeVerifiedCreators &&
              isVerifiedCreator action then none
          else
          match c.queryIsArchived action.repo with
          | .error e =>
            some (newLintError ("failed to check if the action is archived: " ++ e) relPath wf
              uses.pos KindRuntimeError)
          | .ok info =>
            if info.IsArchived && !(params.AllowArchivedRepo.getD DefaultAllowArchivedRepo) then
              some (newLintError
                ("archived action found: repo=" ++ action.RepoID ++ ", archived-at=" ++
                  info.ArchivedAtDate)
                relPath wf uses.pos "archived action is not allowed")
            else
            match checkVerifiedOrg c action.Owner params with
            | .error e =>
              some (newLintError ("failed to check if the owner is verified: " ++ e) relPath wf
                uses.pos KindRuntimeError)
            | .ok _ =>
              let refPos : Pos := ⟨uses.pos.line, uses.pos.col + action.ID.utf8ByteSize + 1⟩
              if action.IsPinnedBySHA then
                match resolveGitTagNamesFromSha c action.repo action.Ref with
                | .error e =>
                  some (newLintError ("failed to resolve git tags: " ++ e) relPath wf refPos
                    KindRuntimeError)
                | .ok tagNames =>
                  if params.AllowOnlyAllowlistedHash.getD DefaultAllowOnlyAllowlistedHash then
                    match renderAllowlist c action.repo
                        ((wf.Params.GetHashAllowlist action).getD []) with
                    | .error e =>
                      some (newLintError ("failed to resolve git tags: " ++ e) relPath wf refPos
                        KindRuntimeError)
                    | .ok allowlist =>
                      some (newLintError
                        ("invalid ref value: action=" ++ action.ID ++ ", sha=" ++
                          shortenHash action.Ref ++ "(" ++ goJoin tagNames ", " ++
                          "), allowlist=" ++ fmtStringSlice allowlist)
                        relPath wf refPos "SHA is not allowlisted")
                  else none
              else
                if params.EnforcePinHash.getD DefaultEnforcePinHash then
                  some (newLintError
                    ("invalid ref value: action=" ++ action.RepoID ++ ", expected=SHA, actual=" ++
                      action.Ref)
                    relPath wf refPos KindUnpinned)
                else none
    | _ =>
      some (newLintError ("invalid uses value: " ++ posString uses.pos) wf.FilePath wf uses.pos
        KindUnexpectedValue)

/-! ## Concurrent pipeline and fan-in aggregation

One task is dispatched per step; each task publishes one `Result` holding
either the step's lint errors (`RuntimeError = none`) or a workflow-level
runtime failure.  The fan-in delivers the results of all tasks in an
arbitrary completion order, modelled below by quantifying over permutations
of the task-result list. -/

/-- One `actionlint.Step`: either an action-execution step carrying its
`uses` token, or any other step shape (e.g. a `run` step). -/
inductive StepExec where
  | action (uses : Option ActionlintStr)
  | run
deriving DecidableEq

structure Step where
  exec : StepExec
deriving DecidableEq

structure Job where
  steps : List Step
deriving DecidableEq

/-- A successfully parsed workflow: named jobs with their steps (the Go map
is carried in some iteration order; no claim depends on it). -/
structure ParsedWorkflow where
  jobs : List (String × Job)

/-- `linter.Result`: what one task publishes on its result channel. -/
structure Result where
  LintErrors : List LintError
  RuntimeError : Option String
deriving DecidableEq

/-- The body of `runLinter` inside `LintWorkflowContext`: an action step is
linted by `lintJobUses` and its (zero or one) errors published with a nil
`RuntimeError`; any other step publishes an empty result. -/
def runLinterResult (c : Collaborators) (wf : WorkflowLintInfo) (step : Step) : Result :=
  match step.exec with
  | .action uses =>
    match lintJobUses c uses wf with
    | some e => ⟨[e], none⟩
    | none => ⟨[], none⟩
  | .run => ⟨[], none⟩

/-- The multiset of task results produced by `LintWorkflowContext` for one
workflow: a parse failure is a single runtime-error result; otherwise one
result per step of every job.  (`parsed` stands for the out-of-scope
`actionlint.Parse` of the content bytes.) -/
def LintWorkflowContextResults (c : Collaborators) (wf : WorkflowLintInfo)
    (parsed : Except String ParsedWorkflow) : List Result :=
  match parsed with
  | .error msg =>
    [⟨[], some ("failed to parse workflow: path=" ++ wf.FilePath ++ ", msg=" ++ msg)⟩]
  | .ok w => (w.jobs.map (fun nj => nj.2.steps.map (runLinterResult c wf))).flatten

/-- The fan-in consumption loop of `LintWorkflowFilesContext`: starting from
the lint errors accumulated before the loop (file-open failures), each
received result either has its `RuntimeError` logged and dropped, or has its
`LintErrors` appended.  `results` is the stream in completion order. -/
def LintWorkflowFilesAggregate (initial : List LintError) (results : List Result) :
    List LintError :=
  results.foldl (fun acc r =>
    match r.RuntimeError with
    | some _ => acc
    | none => acc ++ r.LintErrors) initial

/-! ## Policy configuration cache (`workflow.ActionArmorConfigFile`, `cmd.makeLintParams`) -/

inductive ConfigSource where
  | file
  | fs
deriving DecidableEq

/-- The string value of the `ConfigSource` constant. -/
def ConfigSource.str : ConfigSource → String
  | .file => "file"
  | .fs => "fs"

/-- `workflow.ActionArmorConfigFile` (the `fs.FS` handle itself is I/O and
is represented at use sites by the `readOpts` oracle). -/
structure ActionArmorConfigFile where
  source : ConfigSource
  dirPath : String
  fileName : String
deriving DecidableEq

/-- `FilePath()`: `filepath.Join(dirPath, fileName)` for the cleaned paths
the two constructors produce (a `"."` directory collapses away). -/
def ActionArmorConfigFile.FilePath (c : ActionArmorConfigFile) : String :=
  if c.dirPath == "." then c.fileName else c.dirPath ++ "/" ++ c.fileName

/-- `Hash()`: the digest of `string(source) + FilePath()`.  The source's own
doc comment: the hash is calculated from the file path and the source of the
instance, and is **not** a hash of the file content.  `digest` abstracts
`sha3.Sum256` rendered in hex; every theorem below holds for an arbitrary
digest function. -/
def ActionArmorConfigFile.Hash (c : ActionArmorConfigFile) (digest : String → String) : String :=
  digest (c.source.str ++ c.FilePath)

/-- `cmd.makeLintParams` with the process-wide `configCache` passed and
returned explicitly.  `readOpts` stands for `linter.ReadLintOptions(config)`
(reading the config file from disk and converting its YAML to options): its
value is determined by the configuration bytes on disk at the config path.
`flagOpts` are the flag-override options.  On a cache hit the cached
parameter set is returned and nothing is read or built. -/
def makeLintParams (digest : String → String)
    (readOpts : Except String (List WorkflowLintOption))
    (flagOpts : List WorkflowLintOption)
    (cache : List (String × WorkflowLintParams))
    (config : Option ActionArmorConfigFile) :
    Except String (WorkflowLintParams × List (String × WorkflowLintParams)) :=
  match config with
  | some cfg =>
    match cache.find? (fun kv => kv.1 == cfg.Hash digest) with
    | some kv => .ok (kv.2, cache)
    | none =>
      match readOpts with
      | .error e => .error e
      | .ok o =>
        let params := NewWorkflowLintParams (o ++ flagOpts)
        .ok (params, cache ++ [(cfg.Hash digest, params)])
  | none => .ok (NewWorkflowLintParams flagOpts, cache)

/-! ## Concrete fixtures

Collaborator instantiations and workflow fixtures used by the witnesses and
counterexamples; `cBenign` answers every lookup successfully with a
non-archived repository, `cNoResolve` fails every hash resolution. -/

def cBenign : Collaborators where
  resolveFromHash := fun _ _ => .ok [⟨"v45", "d6e91a2266cdb9d62096cebf1e8546899c6aa18f"⟩]
  resolveFromTag := fun _ _ => .ok ⟨"v45", "d6e91a2266cdb9d62096cebf1e8546899c6aa18f"⟩
  queryIsArchived := fun _ => .ok ⟨false, ""⟩
  queryUserLogin := fun _ => .ok ""
  queryOrgLogin := fun _ => .ok ""
  queryOrgIsVerified := fun _ => .ok false

def cNoResolve : Collaborators where
  resolveFromHash := fun _ _ =>
    .error "1234567890123456789012345678901234567890 is neither a commit nor blob"
  resolveFromTag := fun _ _ => .ok ⟨"v1.0.2", "deadbeefdeadbeefdeadbeefdeadbeefdeadbeef"⟩
  queryIsArchived := fun _ => .ok ⟨false, ""⟩
  queryUserLogin := fun _ => .ok ""
  queryOrgLogin := fun _ => .ok ""
  queryOrgIsVerified := fun _ => .ok false

/-- A lint target whose policy enforces hash pinning (the policy of the
source's scenario-C test). -/
def wfPinHash : WorkflowLintInfo where
  FilePath := "/repo/.github/workflows/workflow.yaml"
  Params := NewWorkflowLintParams [WithEnforcePinHash true]
  RepoID := "owner/repo"
  relPathResult := .ok ".github/workflows/workflow.yaml"

/-- A lint target under the all-default policy. -/
def wfDefaults : WorkflowLintInfo where
  FilePath := "/repo/.github/workflows/workflow.yaml"
  Params := NewWorkflowLintParams []
  RepoID := "owner/repo"
  relPathResult := .ok ".github/workflows/workflow.yaml"

/-- Scenario A of the spec: an official action under the default policy is
allowed. -/
example :
    lintJobUses cBenign (some ⟨"actions/checkout@v4", ⟨8, 15⟩⟩) wfDefaults = none := by
  rfl

/-- The unpinned case of the source's tests: `tj-actions/changed-files@v45`
with `enforce_pin_hash` yields the `Unpinned` violation at the ref's column
`15 + 24 + 1 = 40`. -/
example :
    lintJobUses cBenign (some ⟨"tj-actions/changed-files@v45", ⟨8, 15⟩⟩) wfPinHash =
      some ⟨"invalid ref value: action=tj-actions/changed-files, expected=SHA, actual=v45",
        ".github/workflows/workflow.yaml", 8, 40, KindUnpinned,
        "/repo/.github/workflows/workflow.yaml"⟩ := by
  rfl

/-- The unresolvable-hash case of the source's tests: a syntactically valid
SHA the resolver rejects becomes a runtime-error outcome at the ref's
column. -/
example :
    lintJobUses cNoResolve
        (some ⟨"tj-actions/changed-files@1234567890123456789012345678901234567890", ⟨8, 15⟩⟩)
        wfPinHash =
      some ⟨"failed to resolve git tags: failed to resolve git tags from a ref: " ++
          "repo=tj-actions/changed-files, ref=1234567890123456789012345678901234567890, " ++
          "error=1234567890123456789012345678901234567890 is neither a commit nor blob",
        ".github/workflows/workflow.yaml", 8, 40, KindRuntimeError,
        "/repo/.github/workflows/workflow.yaml"⟩ := by
  rfl

/-! ## Helper lemmas -/

theorem appendUnique_cons (acc : List String) (y : String) (v : List String) :
    appendUnique acc (y :: v) =
      appendUnique (if acc.contains y then acc else acc ++ [y]) v := rfl

theorem appendUnique_nil (acc : List String) : appendUnique acc [] = acc := rfl

theorem mem_appendUnique (acc v : List String) (x : String) :
    x ∈ appendUnique acc v ↔ x ∈ acc ∨ x ∈ v := by
  induction v generalizing acc with
  | nil => simp [appendUnique_nil]
  | cons y v ih =>
    rw [appendUnique_cons]
    by_cases h : acc.contains y
    · have hy : y ∈ acc := List.elem_iff.mp h
      rw [if_pos h, ih]
      constructor
      · rintro (hx | hx)
        · exact Or.inl hx
        · exact Or.inr (List.mem_cons_of_mem _ hx)
      · rintro (hx | hx)
        · exact Or.inl hx
        · rcases List.mem_cons.mp hx with rfl | hx
          · exact Or.inl hy
          · exact Or.inr hx
    · rw [if_neg h, ih]
      simp only [List.mem_append, List.mem_singleton, List.mem_cons]
      tauto

theorem appendUnique_pfx (acc v : List String) : acc <+: appendUnique acc v := by
  induction v generalizing acc with
  | nil => exact List.prefix_rfl
  | cons y v ih =>
    rw [appendUnique_cons]
    by_cases h : acc.contains y
    · rw [if_pos h]; exact ih acc
    · rw [if_neg h]
      exact (List.prefix_append acc [y]).trans (ih (acc ++ [y]))

theorem appendUnique_absorb (acc v : List String) (h : ∀ x ∈ v, x ∈ acc) :
    appendUnique acc v = acc := by
  induction v generalizing acc with
  | nil => rfl
  | cons y v ih =>
    rw [appendUnique_cons, if_pos (List.elem_iff.mpr (h y (List.mem_cons_self y v)))]
    exact ih acc (fun x hx => h x (List.mem_cons_of_mem _ hx))

theorem goSplitOn_of_not_mem {s : String} {c : Char} (h : c ∉ s.data) :
    goSplitOn s c = [s] := by
  unfold goSplitOn
  rw [List.splitOn, List.splitOnP_eq_single]
  · rfl
  · intro x hx hbeq
    exact h (beq_iff_eq.mp hbeq ▸ hx)

theorem not_mem_goTrim {s : String} {c : Char} (h : c ∉ s.data) :
    c ∉ (goTrim s).data := by
  unfold goTrim
  intro hc
  apply h
  have h1 := List.mem_reverse.mp hc
  have h2 := (List.dropWhile_sublist isGoSpace).subset h1
  have h3 := List.mem_reverse.mp h2
  exact (List.dropWhile_sublist isGoSpace).subset h3

theorem goTrim_length_le (s : String) : (goTrim s).data.length ≤ s.data.length := by
  unfold goTrim
  simp only [List.length_reverse]
  calc ((s.data.dropWhile isGoSpace).reverse.dropWhile isGoSpace).length
      ≤ (s.data.dropWhile isGoSpace).reverse.length :=
        (List.dropWhile_sublist isGoSpace).length_le
    _ = (s.data.dropWhile isGoSpace).length := List.length_reverse _
    _ ≤ s.data.length := (List.dropWhile_sublist isGoSpace).length_le

/-- The fan-in loop is the flattening of the lint-error lists of the
runtime-error-free results, appended to the initial list. -/
theorem aggregate_eq_flatten (initial : List LintError) (results : List Result) :
    LintWorkflowFilesAggregate initial results =
      initial ++ (results.filterMap (fun r =>
        match r.RuntimeError with
        | some _ => none
        | none => some r.LintErrors)).flatten := by
  induction results generalizing initial with
  | nil => simp [LintWorkflowFilesAggregate]
  | cons r rs ih =>
    show LintWorkflowFilesAggregate
        (match r.RuntimeError with
          | some _ => initial
          | none => initial ++ r.LintErrors) rs = _
    cases h : r.RuntimeError with
    | some e => simpa [List.filterMap_cons, h] using ih initial
    | none =>
      rw [ih (initial ++ r.LintErrors)]
      simp [List.filterMap_cons, h, List.append_assoc]

/-- Inversion of a successful parse: the trimmed input split on `@` into
exactly the `ID`/`Ref` pair, and `ID` split on `/` with `Owner`/`Name` as
the first two segments. -/
theorem parse_ok_shape (uses : String) (a : Action)
    (h : ParseActionUses uses = .ok a) :
    goSplitOn (goTrim uses) '@' = [a.ID, a.Ref] ∧
      ∃ rest, goSplitOn a.ID '/' = a.Owner :: a.Name :: rest := by
  simp only [ParseActionUses] at h
  split at h
  · next actionID ref heq =>
    split at h
    · next a0 a1 rest heq2 =>
      cases h
      exact ⟨heq, rest, heq2⟩
    · cases h
  · cases h

/-! ## Claim C5 -/

/-- Claim C5 is refuted: `ParseActionUses` accepts `"/x@v1"`, whose owner
segment is the empty string, so a constructed reference need not have a
non-empty `Owner`. -/
theorem C5_counterexample :
    ParseActionUses "/x@v1" = .ok ⟨"/x", "", "x", "v1"⟩ ∧
      (Action.mk "/x" "" "x" "v1").Owner = "" := by
  exact ⟨rfl, rfl⟩

/-- Claim C5 (amended): every successfully constructed `Action` was parsed
from a string whose trimmed form splits on `@` into exactly the two segments
`ID` and `Ref`, and whose `ID` splits on `/` into at least two segments, the
first two being `Owner` and `Name`; either of those may be the empty string
(non-emptiness is not checked). -/
theorem C5_parse_invariant (uses : String) (a : Action)
    (h : ParseActionUses uses = .ok a) :
    goSplitOn (goTrim uses) '@' = [a.ID, a.Ref] ∧
      ∃ rest, goSplitOn a.ID '/' = a.Owner :: a.Name :: rest :=
  parse_ok_shape uses a h

/-- Witness for `C5_parse_invariant` at `"owner/repo@ref"`. -/
theorem C5_witness :
    ParseActionUses "owner/repo@ref" = .ok ⟨"owner/repo", "owner", "repo", "ref"⟩ ∧
      (goSplitOn (goTrim "owner/repo@ref") '@' = ["owner/repo", "ref"] ∧
        ∃ rest, goSplitOn "owner/repo" '/' = "owner" :: "repo" :: rest) :=
  ⟨rfl, C5_parse_invariant "owner/repo@ref" ⟨"owner/repo", "owner", "repo", "ref"⟩ rfl⟩

/-! ## Claim C6 -/

/-- Claim C6 is refuted in its first conjunct: `ParseActionUses` does fail
on a string containing no `@` (here `"invalid"`, the case the source's own
parser test pins down as an error). -/
theorem C6_counterexample :
    ("invalid".data.contains '@') = false ∧
      ParseActionUses "invalid" = .error "unexpected uses value: invalid" := by
  exact ⟨by decide, rfl⟩

/-- Claim C6 (amended): for every `uses` string containing no `@`, the rule
engine returns no violation (ALLOW) under every policy and collaborator —
the engine skips before ever parsing — while `ParseActionUses` itself
rejects every such string with an error. -/
theorem C6_no_at_always_allowed (c : Collaborators) (u : ActionlintStr)
    (wf : WorkflowLintInfo) (h : u.value.data.contains '@' = false) :
    lintJobUses c (some u) wf = none ∧
      ∃ e, ParseActionUses u.value = .error e := by
  have hmem : '@' ∉ u.value.data := by
    intro hm
    have h2 : u.value.data.contains '@' = true := List.elem_iff.mpr hm
    exact Bool.noConfusion (h2.symm.trans h)
  constructor
  · simp only [lintJobUses]
    rw [goSplitOn_of_not_mem hmem]
  · have htrim := not_mem_goTrim hmem
    simp only [ParseActionUses]
    rw [goSplitOn_of_not_mem htrim]
    exact ⟨_, rfl⟩

/-- Witness for `C6_no_at_always_allowed` at `"./local-action"` under the
default policy. -/
theorem C6_witness :
    ("./local-action".data.contains '@') = false ∧
      (lintJobUses cBenign (some ⟨"./local-action", ⟨3, 15⟩⟩) wfDefaults = none ∧
        ∃ e, ParseActionUses "./local-action" = .error e) :=
  ⟨by decide, C6_no_at_always_allowed cBenign ⟨"./local-action", ⟨3, 15⟩⟩ wfDefaults (by decide)⟩

/-! ## Claim C7 -/

/-- Claim C7 is refuted for the hash allowlist: applying
`WithHashAllowlist` a second time replaces the previously accumulated map
outright instead of merging, so the first map's entry is lost. -/
theorem C7_counterexample :
    (NewWorkflowLintParams
        [WithHashAllowlist [("a/b", [⟨"shaone", none⟩])],
         WithHashAllowlist [("c/d", [⟨"shatwo", none⟩])]]).HashAllowlist =
      [("c/d", [⟨"shatwo", none⟩])] := by
  rfl

/-- Claim C7 (amended): every builder option is an idempotent setter; the
creator and action allowlist options merge with the accumulated list
(membership is the union, the old list stays as a prefix, exact duplicates
are suppressed); the hash allowlist option, by contrast, replaces the whole
accumulated map with its argument. -/
theorem C7_option_algebra :
    (∀ p v, WithExcludeOfficialActions v (WithExcludeOfficialActions v p) =
      WithExcludeOfficialActions v p) ∧
    (∀ p v, WithExcludeVerifiedCreators v (WithExcludeVerifiedCreators v p) =
      WithExcludeVerifiedCreators v p) ∧
    (∀ p v, WithAllowOnlyAllowlistedHash v (WithAllowOnlyAllowlistedHash v p) =
      WithAllowOnlyAllowlistedHash v p) ∧
    (∀ p v, WithAllowArchivedRepo v (WithAllowArchivedRepo v p) =
      WithAllowArchivedRepo v p) ∧
    (∀ p v, WithEnforcePinHash v (WithEnforcePinHash v p) = WithEnforcePinHash v p) ∧
    (∀ p v, WithEnforceVerifiedOrganization v (WithEnforceVerifiedOrganization v p) =
      WithEnforceVerifiedOrganization v p) ∧
    (∀ p v, WithCreatorAllowlist v (WithCreatorAllowlist v p) = WithCreatorAllowlist v p) ∧
    (∀ p v, WithActionAllowlist v (WithActionAllowlist v p) = WithActionAllowlist v p) ∧
    (∀ p v, WithHashAllowlist v (WithHashAllowlist v p) = WithHashAllowlist v p) ∧
    (∀ p v x, x ∈ (WithCreatorAllowlist v p).CreatorAllowlist ↔
      x ∈ p.CreatorAllowlist ∨ x ∈ v) ∧
    (∀ p v, p.CreatorAllowlist <+: (WithCreatorAllowlist v p).CreatorAllowlist) ∧
    (∀ p v x, x ∈ (WithActionAllowlist v p).ActionAllowlist ↔
      x ∈ p.ActionAllowlist ∨ x ∈ v) ∧
    (∀ p v, p.ActionAllowlist <+: (WithActionAllowlist v p).ActionAllowlist) ∧
    (∀ p v, (WithHashAllowlist v p).HashAllowlist = v) := by
  refine ⟨fun p v => rfl, fun p v => rfl, fun p v => rfl, fun p v => rfl, fun p v => rfl,
    fun p v => rfl, ?_, ?_, fun p v => rfl, ?_, ?_, ?_, ?_, fun p v => rfl⟩
  · intro p v
    show WorkflowLintParams.mk _ _ _ _ _ _ _ _ _ = WorkflowLintParams.mk _ _ _ _ _ _ _ _ _
    have : appendUnique (appendUnique p.CreatorAllowlist v) v =
        appendUnique p.CreatorAllowlist v :=
      appendUnique_absorb _ _ (fun x hx => (mem_appendUnique _ _ x).mpr (Or.inr hx))
    simp [WithCreatorAllowlist, this]
  · intro p v
    have : appendUnique (appendUnique p.ActionAllowlist v) v =
        appendUnique p.ActionAllowlist v :=
      appendUnique_absorb _ _ (fun x hx => (mem_appendUnique _ _ x).mpr (Or.inr hx))
    simp [WithActionAllowlist, this]
  · intro p v x
    exact mem_appendUnique _ _ x
  · intro p v
    exact appendUnique_pfx _ _
  · intro p v x
    exact mem_appendUnique _ _ x
  · intro p v
    exact appendUnique_pfx _ _

/-! ## Claim C3 -/

/-- The configuration file fixture used by the C3 counterexample and
witness: `NewConfigFileFromFile` output for a `.github/actionarmor.yaml`. -/
def cfgDemo : ActionArmorConfigFile := ⟨.file, ".", "actionarmor.yaml"⟩

/-- Claim C3 is refuted: the cache key of a configuration file is computed
from its source kind and path only, never from the configuration bytes.
Below, the configuration content changes between two runs (modelled by the
changed option list read from the file: `enforce_pin_hash` flips from true
to false), yet the second `makeLintParams` call hits the same cache key and
returns the parameter set built from the *old* content. -/
theorem C3_counterexample :
    makeLintParams (fun s => s) (.ok [WithEnforcePinHash true]) [] [] (some cfgDemo) =
      .ok (NewWorkflowLintParams [WithEnforcePinHash true],
        [("fileactionarmor.yaml", NewWorkflowLintParams [WithEnforcePinHash true])]) ∧
    makeLintParams (fun s => s) (.ok [WithEnforcePinHash false]) []
        [("fileactionarmor.yaml", NewWorkflowLintParams [WithEnforcePinHash true])]
        (some cfgDemo) =
      .ok (NewWorkflowLintParams [WithEnforcePinHash true],
        [("fileactionarmor.yaml", NewWorkflowLintParams [WithEnforcePinHash true])]) ∧
    (NewWorkflowLintParams [WithEnforcePinHash true]).EnforcePinHash = some true ∧
    (NewWorkflowLintParams [WithEnforcePinHash false]).EnforcePinHash = some false := by
  exact ⟨rfl, rfl, rfl, rfl⟩

/-- Claim C3 (amended): the `PolicyParameterSet` cache is keyed by
`Hash()`, the digest of the config source kind and file path — not of the
configuration bytes.  Hence two lints that reference the same configuration
file share one cached instance: after a first call populates the cache, a
second call with the same config file returns exactly the cached parameter
set, no matter what configuration bytes (`readOpts`) are on disk by then. -/
theorem C3_cache_key_ignores_content (digest : String → String)
    (ro1 ro2 : Except String (List WorkflowLintOption))
    (flagOpts : List WorkflowLintOption) (cfg : ActionArmorConfigFile)
    (p : WorkflowLintParams) (cache1 : List (String × WorkflowLintParams))
    (h : makeLintParams digest ro1 flagOpts [] (some cfg) = .ok (p, cache1)) :
    makeLintParams digest ro2 flagOpts cache1 (some cfg) = .ok (p, cache1) := by
  unfold makeLintParams at h ⊢
  simp only [List.find?_nil] at h
  cases ro1 with
  | error e => cases h
  | ok o =>
    simp only [Except.ok.injEq, Prod.mk.injEq] at h
    obtain ⟨hp, hc⟩ := h
    subst hp
    subst hc
    simp [List.find?_cons]

/-- Witness for `C3_cache_key_ignores_content` at the concrete fixture. -/
theorem C3_witness :
    makeLintParams (fun s => s) (.ok [WithAllowArchivedRepo false]) [] [] (some cfgDemo) =
      .ok (NewWorkflowLintParams [WithAllowArchivedRepo false],
        [("fileactionarmor.yaml", NewWorkflowLintParams [WithAllowArchivedRepo false])]) ∧
    makeLintParams (fun s => s) (.error "config file deleted") []
        [("fileactionarmor.yaml", NewWorkflowLintParams [WithAllowArchivedRepo false])]
        (some cfgDemo) =
      .ok (NewWorkflowLintParams [WithAllowArchivedRepo false],
        [("fileactionarmor.yaml", NewWorkflowLintParams [WithAllowArchivedRepo false])]) :=
  ⟨rfl, C3_cache_key_ignores_content (fun s => s) (.ok [WithAllowArchivedRepo false])
    (.error "config file deleted") [] cfgDemo _ _ rfl⟩

/-! ## Claim C4 -/

/-- Claim C4: for every reference that reaches the final rule of the
decision chain (the hypotheses state that every earlier rule declined to
decide) and is not pinned by a SHA, the outcome is exactly: with
`enforce_pin_hash` a REJECT of kind `Unpinned` whose message is
`invalid ref value: action=<repo-id>, expected=SHA, actual=<ref>` and whose
position is the `uses` line with column `usesCol + len(actionID) + 1`;
without `enforce_pin_hash`, ALLOW. -/
theorem C4_unpinned_rule (c : Collaborators) (u : ActionlintStr) (wf : WorkflowLintInfo)
    (relPath : String) (action : Action) (idStr refStr : String) (archived : ArchivedInfo)
    (hsplit : goSplitOn u.value '@' = [idStr, refStr])
    (hrel : wf.relPathResult = .ok relPath)
    (hparse : ParseActionUses u.value = .ok action)
    (hlocal : action.IsLocalReusableWorkflows = false)
    (hofficial : (wf.Params.ExcludeOfficialActions.getD DefaultExcludeOfficialActions &&
      OfficialCreators.contains action.Owner) = false)
    (hallow : (isAllowlisted action wf.Params).1 = false)
    (hverified : (wf.Params.ExcludeVerifiedCreators.getD DefaultExcludeVerifiedCreators &&
      isVerifiedCreator action) = false)
    (harch : c.queryIsArchived action.repo = .ok archived)
    (harchok : (archived.IsArchived &&
      !(wf.Params.AllowArchivedRepo.getD DefaultAllowArchivedRepo)) = false)
    (horg : checkVerifiedOrg c action.Owner wf.Params = .ok ())
    (hpin : action.IsPinnedBySHA = false) :
    lintJobUses c (some u) wf =
      (if wf.Params.EnforcePinHash.getD DefaultEnforcePinHash then
        some ⟨"invalid ref value: action=" ++ action.RepoID ++ ", expected=SHA, actual=" ++
            action.Ref, relPath, u.pos.line, u.pos.col + action.ID.utf8ByteSize + 1,
          KindUnpinned, wf.FilePath⟩
      else none) := by
  simp only [lintJobUses, hsplit, hrel, hparse, hlocal, hofficial, hallow, hverified, harch,
    harchok, horg, hpin, newLintError, Bool.false_eq_true, if_false]

/-- Witness for `C4_unpinned_rule`: `actions/checkout@v4` under
`enforce-pin-hash=true, exclude-official-actions=false` (scenario B of the
spec) produces the `Unpinned` violation at column `15 + 16 + 1 = 32`. -/
theorem C4_witness :
    lintJobUses cBenign (some ⟨"actions/checkout@v4", ⟨8, 15⟩⟩)
        ⟨"/repo/.github/workflows/workflow.yaml",
          NewWorkflowLintParams [WithEnforcePinHash true, WithExcludeOfficialActions false],
          "owner/repo", .ok ".github/workflows/workflow.yaml"⟩ =
      some ⟨"invalid ref value: action=actions/checkout, expected=SHA, actual=v4",
        ".github/workflows/workflow.yaml", 8, 32, KindUnpinned,
        "/repo/.github/workflows/workflow.yaml"⟩ := by
  have h := C4_unpinned_rule cBenign ⟨"actions/checkout@v4", ⟨8, 15⟩⟩
    ⟨"/repo/.github/workflows/workflow.yaml",
      NewWorkflowLintParams [WithEnforcePinHash true, WithExcludeOfficialActions false],
      "owner/repo", .ok ".github/workflows/workflow.yaml"⟩
    ".github/workflows/workflow.yaml" ⟨"actions/checkout", "actions", "checkout", "v4"⟩
    "actions/checkout" "v4" ⟨false, ""⟩ rfl rfl rfl rfl rfl rfl rfl rfl rfl rfl rfl
  exact h.trans (by rfl)

/-! ## Claim C9 -/

/-- Claim C9: a reference that is allowlisted (by creator or action id, the
hypotheses include every rule up to the allowlist check) but is not pinned
by a SHA still has its ref resolved through `ResolveFromTagContext`, and the
outcome is exactly a function of that resolver call: a resolver failure is
an UNRESOLVABLE outcome of kind `RuntimeError` at the `uses` position — not
a silent ALLOW — while a successful resolution is ALLOW. -/
theorem C9_allowlisted_tag_resolution (c : Collaborators) (u : ActionlintStr)
    (wf : WorkflowLintInfo) (relPath : String) (action : Action) (idStr refStr : String)
    (hsplit : goSplitOn u.value '@' = [idStr, refStr])
    (hrel : wf.relPathResult = .ok relPath)
    (hparse : ParseActionUses u.value = .ok action)
    (hlocal : action.IsLocalReusableWorkflows = false)
    (hofficial : (wf.Params.ExcludeOfficialActions.getD DefaultExcludeOfficialActions &&
      OfficialCreators.contains action.Owner) = false)
    (hallow : (isAllowlisted action wf.Params).1 = true)
    (hpin : action.IsPinnedBySHA = false) :
    lintJobUses c (some u) wf =
      (match c.resolveFromTag action.repo action.Ref with
       | .error e =>
         some ⟨"failed to resolve git tag: " ++ e, relPath, u.pos.line, u.pos.col,
           KindRuntimeError, wf.FilePath⟩
       | .ok _ => none) := by
  simp only [lintJobUses, hsplit, hrel, hparse, hlocal, hofficial, hallow, hpin, newLintError,
    Bool.false_eq_true, if_false, if_true]

/-- A collaborator family whose tag resolution always fails. -/
def cTagFail (emsg : String) : Collaborators where
  resolveFromHash := fun _ _ => .ok []
  resolveFromTag := fun _ _ => .error emsg
  queryIsArchived := fun _ => .ok ⟨false, ""⟩
  queryUserLogin := fun _ => .ok ""
  queryOrgLogin := fun _ => .ok ""
  queryOrgIsVerified := fun _ => .ok false

/-- The lint target of the source's creator-allowlist test:
`creator_allowlist=[google-github-actions]` with `enforce_pin_hash`. -/
def wfCreatorAllow : WorkflowLintInfo where
  FilePath := "/repo/.github/workflows/workflow.yaml"
  Params := NewWorkflowLintParams
    [WithEnforcePinHash true, WithCreatorAllowlist ["google-github-actions"]]
  RepoID := "owner/repo"
  relPathResult := .ok ".github/workflows/workflow.yaml"

/-- Witness for `C9_allowlisted_tag_resolution`: the creator-allowlisted,
unpinned `google-github-actions/auth@v2` becomes a `RuntimeError` outcome
when the tag resolver fails. -/
theorem C9_witness :
    lintJobUses (cTagFail "no such tag") (some ⟨"google-github-actions/auth@v2", ⟨9, 17⟩⟩)
        wfCreatorAllow =
      some ⟨"failed to resolve git tag: no such tag", ".github/workflows/workflow.yaml",
        9, 17, KindRuntimeError, "/repo/.github/workflows/workflow.yaml"⟩ := by
  have h := C9_allowlisted_tag_resolution (cTagFail "no such tag")
    ⟨"google-github-actions/auth@v2", ⟨9, 17⟩⟩ wfCreatorAllow
    ".github/workflows/workflow.yaml"
    ⟨"google-github-actions/auth", "google-github-actions", "auth", "v2"⟩
    "google-github-actions/auth" "v2" rfl rfl rfl rfl rfl rfl rfl
  exact h.trans (by rfl)

/-! ## Claim C8 -/

/-- Claim C8: for a reference whose repository the archived lookup reports
as archived, the engine behaves as the claim says on message, position and
the allow-archived-repo switch, but the violation's kind is the ad-hoc
string `"archived action is not allowed"`, not the declared constant
`KindArchivedActionUsed` (`"archived action action is being used"`) that the
source's own test expects.  When archiving is allowed, evaluation continues
and no violation is produced for the archival (shown here continuing into an
all-pass tail of the chain). -/
theorem C8_archived_rule (c : Collaborators) (u : ActionlintStr) (wf : WorkflowLintInfo)
    (relPath : String) (action : Action) (idStr refStr date : String)
    (hsplit : goSplitOn u.value '@' = [idStr, refStr])
    (hrel : wf.relPathResult = .ok relPath)
    (hparse : ParseActionUses u.value = .ok action)
    (hlocal : action.IsLocalReusableWorkflows = false)
    (hofficial : (wf.Params.ExcludeOfficialActions.getD DefaultExcludeOfficialActions &&
      OfficialCreators.contains action.Owner) = false)
    (hallow : (isAllowlisted action wf.Params).1 = false)
    (hverified : (wf.Params.ExcludeVerifiedCreators.getD DefaultExcludeVerifiedCreators &&
      isVerifiedCreator action) = false)
    (harch : c.queryIsArchived action.repo = .ok ⟨true, date⟩) :
    (wf.Params.AllowArchivedRepo.getD DefaultAllowArchivedRepo = false →
      lintJobUses c (some u) wf =
        some ⟨"archived action found: repo=" ++ action.RepoID ++ ", archived-at=" ++ date,
          relPath, u.pos.line, u.pos.col, "archived action is not allowed", wf.FilePath⟩ ∧
      ("archived action is not allowed" : ErrorKind) ≠ KindArchivedActionUsed) ∧
    (wf.Params.AllowArchivedRepo.getD DefaultAllowArchivedRepo = true →
      checkVerifiedOrg c action.Owner wf.Params = .ok () →
      action.IsPinnedBySHA = false →
      wf.Params.EnforcePinHash.getD DefaultEnforcePinHash = false →
      lintJobUses c (some u) wf = none) := by
  constructor
  · intro hdeny
    constructor
    · simp only [lintJobUses, hsplit, hrel, hparse, hlocal, hofficial, hallow, hverified,
        harch, hdeny, newLintError, Bool.false_eq_true, if_false, Bool.not_false,
        Bool.and_true, if_true]
    · decide
  · intro hok horg hpin henf
    simp only [lintJobUses, hsplit, hrel, hparse, hlocal, hofficial, hallow, hverified,
      harch, hok, horg, hpin, henf, Bool.false_eq_true, if_false, Bool.not_true,
      Bool.and_false]

/-- A collaborator family reporting every repository as archived at the
given date. -/
def cArchived (date : String) : Collaborators where
  resolveFromHash := fun _ _ => .ok []
  resolveFromTag := fun _ _ => .ok ⟨"v1", "deadbeefdeadbeefdeadbeefdeadbeefdeadbeef"⟩
  queryIsArchived := fun _ => .ok ⟨true, date⟩
  queryUserLogin := fun _ => .ok ""
  queryOrgLogin := fun _ => .ok ""
  queryOrgIsVerified := fun _ => .ok false

/-- A lint target whose policy forbids archived repositories. -/
def wfArchDeny : WorkflowLintInfo where
  FilePath := "/repo/.github/workflows/workflow.yaml"
  Params := NewWorkflowLintParams [WithAllowArchivedRepo false]
  RepoID := "owner/repo"
  relPathResult := .ok ".github/workflows/workflow.yaml"

/-- Witness for `C8_archived_rule`: an archived `foo/bar@v1` under
`allow_archived_repo=false` is rejected with the ad-hoc kind string. -/
theorem C8_witness :
    lintJobUses (cArchived "2021-03-04") (some ⟨"foo/bar@v1", ⟨8, 15⟩⟩) wfArchDeny =
      some ⟨"archived action found: repo=foo/bar, archived-at=2021-03-04",
        ".github/workflows/workflow.yaml", 8, 15, "archived action is not allowed",
        "/repo/.github/workflows/workflow.yaml"⟩ ∧
    ("archived action is not allowed" : ErrorKind) ≠ KindArchivedActionUsed :=
  (C8_archived_rule (cArchived "2021-03-04") ⟨"foo/bar@v1", ⟨8, 15⟩⟩ wfArchDeny
    ".github/workflows/workflow.yaml" ⟨"foo/bar", "foo", "bar", "v1"⟩ "foo/bar" "v1"
    "2021-03-04" rfl rfl rfl rfl rfl rfl rfl rfl).1 rfl

/-! ## Shared engine-path lemmas (used by the aggregation claims) -/

/-- A SHA-pinned, non-allowlisted reference whose hash the resolver cannot
resolve yields the runtime-error outcome at the ref position. -/
theorem lintJobUses_pinned_resolver_error (c : Collaborators) (u : ActionlintStr)
    (wf : WorkflowLintInfo) (relPath : String) (action : Action)
    (idStr refStr emsg : String) (archived : ArchivedInfo)
    (hsplit : goSplitOn u.value '@' = [idStr, refStr])
    (hrel : wf.relPathResult = .ok relPath)
    (hparse : ParseActionUses u.value = .ok action)
    (hlocal : action.IsLocalReusableWorkflows = false)
    (hofficial : (wf.Params.ExcludeOfficialActions.getD DefaultExcludeOfficialActions &&
      OfficialCreators.contains action.Owner) = false)
    (hallow : (isAllowlisted action wf.Params).1 = false)
    (hverified : (wf.Params.ExcludeVerifiedCreators.getD DefaultExcludeVerifiedCreators &&
      isVerifiedCreator action) = false)
    (harch : c.queryIsArchived action.repo = .ok archived)
    (harchok : (archived.IsArchived &&
      !(wf.Params.AllowArchivedRepo.getD DefaultAllowArchivedRepo)) = false)
    (horg : checkVerifiedOrg c action.Owner wf.Params = .ok ())
    (hpin : action.IsPinnedBySHA = true)
    (hres : c.resolveFromHash action.repo action.Ref = .error emsg) :
    lintJobUses c (some u) wf =
      some ⟨"failed to resolve git tags: " ++ ("failed to resolve git tags from a ref: repo=" ++
          action.Owner ++ "/" ++ action.Name ++ ", ref=" ++ action.Ref ++ ", error=" ++ emsg),
        relPath, u.pos.line, u.pos.col + action.ID.utf8ByteSize + 1, KindRuntimeError,
        wf.FilePath⟩ := by
  have harch2 := harch
  have hres2 := hres
  simp only [Action.repo] at harch2 hres2
  simp only [lintJobUses, resolveGitTagNamesFromSha, Action.repo, hsplit, hrel, hparse, hlocal,
    hofficial, hallow, hverified, harch2, harchok, horg, hpin, hres2, newLintError,
    Bool.false_eq_true, if_false, if_true]

/-- A non-allowlisted, unpinned reference under `enforce_pin_hash` yields
the `Unpinned` rejection at the ref position. -/
theorem lintJobUses_unpinned_reject (c : Collaborators) (u : ActionlintStr)
    (wf : WorkflowLintInfo) (relPath : String) (action : Action) (idStr refStr : String)
    (archived : ArchivedInfo)
    (hsplit : goSplitOn u.value '@' = [idStr, refStr])
    (hrel : wf.relPathResult = .ok relPath)
    (hparse : ParseActionUses u.value = .ok action)
    (hlocal : action.IsLocalReusableWorkflows = false)
    (hofficial : (wf.Params.ExcludeOfficialActions.getD DefaultExcludeOfficialActions &&
      OfficialCreators.contains action.Owner) = false)
    (hallow : (isAllowlisted action wf.Params).1 = false)
    (hverified : (wf.Params.ExcludeVerifiedCreators.getD DefaultExcludeVerifiedCreators &&
      isVerifiedCreator action) = false)
    (harch : c.queryIsArchived action.repo = .ok archived)
    (harchok : (archived.IsArchived &&
      !(wf.Params.AllowArchivedRepo.getD DefaultAllowArchivedRepo)) = false)
    (horg : checkVerifiedOrg c action.Owner wf.Params = .ok ())
    (hpin : action.IsPinnedBySHA = false)
    (henf : wf.Params.EnforcePinHash.getD DefaultEnforcePinHash = true) :
    lintJobUses c (some u) wf =
      some ⟨"invalid ref value: action=" ++ action.RepoID ++ ", expected=SHA, actual=" ++
          action.Ref, relPath, u.pos.line, u.pos.col + action.ID.utf8ByteSize + 1,
        KindUnpinned, wf.FilePath⟩ := by
  simp only [lintJobUses, hsplit, hrel, hparse, hlocal, hofficial, hallow, hverified, harch,
    harchok, horg, hpin, henf, newLintError, Bool.false_eq_true, if_false, if_true]

/-! ## Claim C1 -/

/-- The scenario the C1 counterexample runs: one workflow whose single step
uses a syntactically valid SHA the resolver cannot resolve. -/
def wfRuntimeErr : ParsedWorkflow :=
  ⟨[("test", ⟨[⟨.action (some ⟨"tj-actions/changed-files@1234567890123456789012345678901234567890",
    ⟨8, 15⟩⟩)⟩]⟩)]⟩

/-- Claim C1 is refuted: a per-step infrastructure failure (here an
unresolvable SHA) is materialised by `lintJobUses` as a lint error of kind
`KindRuntimeError` inside a result whose `RuntimeError` field is nil, so the
top-level aggregation returns it — the returned violation list does contain
an entry of kind `RuntimeError`. -/
theorem C1_counterexample :
    (LintWorkflowFilesAggregate []
        (LintWorkflowContextResults cNoResolve wfPinHash (.ok wfRuntimeErr))).map
      LintError.Kind = [KindRuntimeError] := by
  rfl

/-- Claim C1 (amended): the fan-in aggregation of
`LintWorkflowFilesContext` excludes exactly the results whose
`RuntimeError` *field* is set (workflow-level failures, which are logged and
dropped): an error is returned iff it was accumulated before the loop or
belongs to the `LintErrors` of a result with no `RuntimeError`.  Per-step
UNRESOLVABLE outcomes, however, are delivered as `LintErrors` entries of
kind `RuntimeError` inside such results and hence are returned, not
filtered. -/
theorem C1_aggregation_membership (initial : List LintError) (results : List Result)
    (e : LintError) :
    e ∈ LintWorkflowFilesAggregate initial results ↔
      e ∈ initial ∨ ∃ r ∈ results, r.RuntimeError = none ∧ e ∈ r.LintErrors := by
  rw [aggregate_eq_flatten]
  simp only [List.mem_append, List.mem_flatten, List.mem_filterMap]
  constructor
  · rintro (h | ⟨l, ⟨r, hr, hmap⟩, hel⟩)
    · exact Or.inl h
    · refine Or.inr ⟨r, hr, ?_⟩
      cases hrt : r.RuntimeError with
      | some err => rw [hrt] at hmap; cases hmap
      | none => rw [hrt] at hmap; cases hmap; exact ⟨rfl, hel⟩
  · rintro (h | ⟨r, hr, hrt, hel⟩)
    · exact Or.inl h
    · exact Or.inr ⟨r.LintErrors, ⟨r, hr, by rw [hrt]⟩, hel⟩

/-! ## Claim C2 -/

def u1C2 : ActionlintStr :=
  ⟨"tj-actions/changed-files@1234567890123456789012345678901234567890", ⟨8, 15⟩⟩

def u2C2 : ActionlintStr := ⟨"bufbuild/buf-action@v1.0.2", ⟨9, 15⟩⟩

/-- Scenario C of the spec: a workflow with exactly the two action steps. -/
def scenarioCWorkflow : ParsedWorkflow :=
  ⟨[("test", ⟨[⟨.action (some u1C2)⟩, ⟨.action (some u2C2)⟩]⟩)]⟩

/-- The runtime-error violation the unresolvable SHA produces. -/
def e1C2 (emsg : String) : LintError :=
  ⟨"failed to resolve git tags: failed to resolve git tags from a ref: " ++
      "repo=tj-actions/changed-files, ref=1234567890123456789012345678901234567890, error=" ++
      emsg,
    ".github/workflows/workflow.yaml", 8, 40, KindRuntimeError,
    "/repo/.github/workflows/workflow.yaml"⟩

/-- The unpinned violation the tag ref produces. -/
def e2C2 : LintError :=
  ⟨"invalid ref value: action=bufbuild/buf-action, expected=SHA, actual=v1.0.2",
    ".github/workflows/workflow.yaml", 9, 35, KindUnpinned,
    "/repo/.github/workflows/workflow.yaml"⟩

/-- Claim C2: for the two-step workflow of scenario C under
`enforce-pin-hash=true`, whatever order the concurrent tasks complete in
(any permutation of the task results), the returned list is exactly the two
violations — one `RuntimeError` for the unresolvable SHA and one `Unpinned`
for the tag ref — and both are present. -/
theorem C2_two_violations_any_order (c : Collaborators) (emsg d1 d2 : String)
    (order : List Result)
    (hres : c.resolveFromHash ⟨"tj-actions", "changed-files"⟩
      "1234567890123456789012345678901234567890" = .error emsg)
    (harch1 : c.queryIsArchived ⟨"tj-actions", "changed-files"⟩ = .ok ⟨false, d1⟩)
    (harch2 : c.queryIsArchived ⟨"bufbuild", "buf-action"⟩ = .ok ⟨false, d2⟩)
    (hperm : order.Perm (LintWorkflowContextResults c wfPinHash (.ok scenarioCWorkflow))) :
    (LintWorkflowFilesAggregate [] order).Perm [e1C2 emsg, e2C2] ∧
      (e1C2 emsg).Kind = KindRuntimeError ∧ e2C2.Kind = KindUnpinned ∧
      (LintWorkflowFilesAggregate [] order).length = 2 ∧
      e1C2 emsg ∈ LintWorkflowFilesAggregate [] order ∧
      e2C2 ∈ LintWorkflowFilesAggregate [] order := by
  have hr1 : lintJobUses c (some u1C2) wfPinHash = some (e1C2 emsg) :=
    lintJobUses_pinned_resolver_error c u1C2 wfPinHash ".github/workflows/workflow.yaml"
      ⟨"tj-actions/changed-files", "tj-actions", "changed-files",
        "1234567890123456789012345678901234567890"⟩
      "tj-actions/changed-files" "1234567890123456789012345678901234567890" emsg ⟨false, d1⟩
      rfl rfl rfl rfl rfl rfl rfl harch1 rfl rfl rfl hres
  have hr2 : lintJobUses c (some u2C2) wfPinHash = some e2C2 :=
    lintJobUses_unpinned_reject c u2C2 wfPinHash ".github/workflows/workflow.yaml"
      ⟨"bufbuild/buf-action", "bufbuild", "buf-action", "v1.0.2"⟩
      "bufbuild/buf-action" "v1.0.2" ⟨false, d2⟩
      rfl rfl rfl rfl rfl rfl rfl harch2 rfl rfl rfl rfl
  have hresults : LintWorkflowContextResults c wfPinHash (.ok scenarioCWorkflow) =
      [⟨[e1C2 emsg], none⟩, ⟨[e2C2], none⟩] := by
    simp only [LintWorkflowContextResults, scenarioCWorkflow, runLinterResult,
      List.map_cons, List.map_nil, List.flatten, hr1, hr2, List.append_nil]
  rw [hresults] at hperm
  have hagg : LintWorkflowFilesAggregate [] order =
      (order.filterMap (fun r =>
        match r.RuntimeError with
        | some _ => none
        | none => some r.LintErrors)).flatten := by
    simpa using aggregate_eq_flatten [] order
  have hpermAgg : (LintWorkflowFilesAggregate [] order).Perm [e1C2 emsg, e2C2] := by
    rw [hagg]
    have h2 := (hperm.filterMap (fun r =>
      match r.RuntimeError with
      | some _ => none
      | none => some r.LintErrors)).flatten
    simpa using h2
  refine ⟨hpermAgg, rfl, rfl, ?_, ?_, ?_⟩
  · simpa using hpermAgg.length_eq
  · exact hpermAgg.mem_iff.mpr (by simp)
  · exact hpermAgg.mem_iff.mpr (by simp)

/-- Witness for `C2_two_violations_any_order`: the reversed completion
order (the unpinned result first) still yields both violations. -/
theorem C2_witness :
    (LintWorkflowFilesAggregate [] [⟨[e2C2], none⟩,
        ⟨[e1C2 "1234567890123456789012345678901234567890 is neither a commit nor blob"],
          none⟩]).Perm
      [e1C2 "1234567890123456789012345678901234567890 is neither a commit nor blob", e2C2] ∧
      (e1C2 "1234567890123456789012345678901234567890 is neither a commit nor blob").Kind =
        KindRuntimeError ∧
      e2C2.Kind = KindUnpinned ∧
      (LintWorkflowFilesAggregate [] [⟨[e2C2], none⟩,
        ⟨[e1C2 "1234567890123456789012345678901234567890 is neither a commit nor blob"],
          none⟩]).length = 2 ∧
      e1C2 "1234567890123456789012345678901234567890 is neither a commit nor blob" ∈
        LintWorkflowFilesAggregate [] [⟨[e2C2], none⟩,
          ⟨[e1C2 "1234567890123456789012345678901234567890 is neither a commit nor blob"],
            none⟩] ∧
      e2C2 ∈ LintWorkflowFilesAggregate [] [⟨[e2C2], none⟩,
        ⟨[e1C2 "1234567890123456789012345678901234567890 is neither a commit nor blob"],
          none⟩] := by
  have h := C2_two_violations_any_order cNoResolve
    "1234567890123456789012345678901234567890 is neither a commit nor blob" "" ""
    [⟨[e2C2], none⟩,
      ⟨[e1C2 "1234567890123456789012345678901234567890 is neither a commit nor blob"], none⟩]
    rfl rfl rfl (by rw [show LintWorkflowContextResults cNoResolve wfPinHash
      (.ok scenarioCWorkflow) =
        [⟨[e1C2 "1234567890123456789012345678901234567890 is neither a commit nor blob"],
          none⟩, ⟨[e2C2], none⟩] from rfl]; exact List.Perm.swap _ _ [])
  exact h

/-! ## Claim C10 -/

theorem map_data_mk (l : List (List Char)) :
    (l.map (fun d => (⟨d⟩ : String))).map String.data = l := by
  induction l with
  | nil => rfl
  | cons a t ih => simpa using ih

/-- A `goSplitOn` result determines the split of the underlying character
list. -/
theorem goSplitOn_data {s : String} {c : Char} {parts : List String}
    (h : goSplitOn s c = parts) : s.data.splitOn c = parts.map String.data := by
  have h2 := congrArg (List.map String.data) h
  rw [goSplitOn, map_data_mk] at h2
  exact h2

theorem intercalate_cons_cons (c : Char) (a b : List Char) (t : List (List Char)) :
    List.intercalate [c] (a :: b :: t) = a ++ c :: List.intercalate [c] (b :: t) := by
  simp [List.intercalate, List.intersperse_cons_cons]

theorem intercalate_single (c : Char) (a : List Char) : List.intercalate [c] [a] = a := by
  simp [List.intercalate]

/-- Splitting into exactly two segments recomposes the string. -/
theorem recompose_two {s : String} {x y : String} {c : Char}
    (h : goSplitOn s c = [x, y]) : s.data = x.data ++ c :: y.data := by
  have h2 := goSplitOn_data h
  have h3 := List.intercalate_splitOn s.data c
  rw [h2] at h3
  rw [← h3, List.map_cons, List.map_cons, List.map_nil, intercalate_cons_cons,
    intercalate_single]

/-- Splitting into three or more segments makes the string at least two
characters longer than the first two segments combined. -/
theorem split_three_length {s : String} {x y r : String} {rs : List String} {c : Char}
    (h : goSplitOn s c = x :: y :: r :: rs) :
    x.data.length + y.data.length + 2 ≤ s.data.length := by
  have h2 := goSplitOn_data h
  have h3 := List.intercalate_splitOn s.data c
  rw [h2] at h3
  rw [← h3, List.map_cons, List.map_cons, List.map_cons, intercalate_cons_cons,
    intercalate_cons_cons]
  simp only [List.length_append, List.length_cons]
  omega

/-- Claim C10 is refuted in its round-trip half: `"a/b@r "` (note the
trailing blank) parses to an action whose `ID` has exactly two
`/`-separated segments, yet `String()` renders `"a/b@r"`, not the original
string — trimming makes the characterisation "exactly those uses strings
whose ID has exactly two segments" false. -/
theorem C10_counterexample :
    ParseActionUses "a/b@r " = .ok ⟨"a/b", "a", "b", "r"⟩ ∧
      (goSplitOn "a/b" '/').length = 2 ∧
      Action.toStr ⟨"a/b", "a", "b", "r"⟩ = "a/b@r" ∧
      Action.toStr ⟨"a/b", "a", "b", "r"⟩ ≠ "a/b@r " := by
  refine ⟨rfl, rfl, rfl, by decide⟩

/-- Claim C10 (amended): `String()` renders `Owner/Name@Ref`, ignoring the
`ID` field entirely (so extra path segments are discarded), and
parse-then-String round-trips exactly those uses strings that are
whitespace-trimmed fixpoints and whose `ID` has exactly two `/`-separated
segments; a reusable-workflow reference with path segments in its `ID` does
not round-trip. -/
theorem C10_roundtrip :
    (∀ (a : Action) (id2 : String),
      (Action.mk id2 a.Owner a.Name a.Ref).toStr = a.toStr) ∧
    (∀ (s : String) (act : Action), ParseActionUses s = .ok act →
      (act.toStr = s ↔ (goTrim s = s ∧ (goSplitOn act.ID '/').length = 2))) ∧
    (ParseActionUses "owner/repo/.github/workflows/x.yml@ref" =
      .ok ⟨"owner/repo/.github/workflows/x.yml", "owner", "repo", "ref"⟩ ∧
      Action.toStr ⟨"owner/repo/.github/workflows/x.yml", "owner", "repo", "ref"⟩ =
        "owner/repo@ref" ∧
      ("owner/repo@ref" : String) ≠ "owner/repo/.github/workflows/x.yml@ref") := by
  refine ⟨fun a id2 => rfl, ?_, rfl, rfl, by decide⟩
  intro s act h
  obtain ⟨hat, rest, hid⟩ := parse_ok_shape s act h
  have htrimdata : (goTrim s).data = act.ID.data ++ '@' :: act.Ref.data := recompose_two hat
  have htostr : act.toStr.data =
      act.Owner.data ++ '/' :: act.Name.data ++ '@' :: act.Ref.data := by
    simp [Action.toStr, List.append_assoc]
  constructor
  · intro heq
    cases rest with
    | nil =>
      have hiddata : act.ID.data = act.Owner.data ++ '/' :: act.Name.data :=
        recompose_two hid
      have hsdata : s.data = act.Owner.data ++ '/' :: act.Name.data ++ '@' :: act.Ref.data := by
        rw [← heq, htostr]
      constructor
      · apply String.ext
        rw [htrimdata, hiddata, hsdata]
      · rw [hid]
        rfl
    | cons r rs =>
      exfalso
      have hlen1 : act.Owner.data.length + act.Name.data.length + 2 ≤ act.ID.data.length :=
        split_three_length hid
      have hlen2 : (goTrim s).data.length = act.ID.data.length + 1 + act.Ref.data.length := by
        rw [htrimdata]
        simp
        omega
      have hlen3 : s.data.length =
          act.Owner.data.length + act.Name.data.length + act.Ref.data.length + 2 := by
        rw [← heq, htostr]
        simp
        omega
      have hle := goTrim_length_le s
      omega
  · rintro ⟨htrim, hlen⟩
    have hrest : rest = [] := by
      have : (act.Owner :: act.Name :: rest).length = 2 := by rw [← hid, hlen]
      simpa using this
    subst hrest
    have hiddata : act.ID.data = act.Owner.data ++ '/' :: act.Name.data :=
      recompose_two hid
    apply String.ext
    rw [htostr, ← htrim, htrimdata, hiddata]

/-- Witness for `C10_roundtrip` at `"owner/repo@ref"` (round-trips) — the
iff is applied in the forward direction at a concrete parse. -/
theorem C10_witness :
    ParseActionUses "owner/repo@ref" = .ok ⟨"owner/repo", "owner", "repo", "ref"⟩ ∧
      (goTrim "owner/repo@ref" = "owner/repo@ref" ∧
        (goSplitOn "owner/repo" '/').length = 2) :=
  ⟨rfl, (C10_roundtrip.2.1 "owner/repo@ref" ⟨"owner/repo", "owner", "repo", "ref"⟩ rfl).mp rfl⟩

end ActionArmor
